import Mathlib

/-!
Shallow embedding of src/Software/src/SoundManagerBase.cpp (Lightpack), the
audio visualizer core: the spectrum bucketizer, decaying peak tracker, color
mapper and the orchestration entry points (updateColors, applyFft, reset,
setLiquidMode, requestDeviceList, initColors).

Floating point arithmetic of the source (float magnitudes, double
intermediates) is idealized as exact rational arithmetic; conversions of
nonnegative real expressions to integer types are modelled as floors,
computed with integer operations. Line numbers refer to the source file.
-/

/-- specHeight constant of applyFft (line 187). -/
def specHeight : ℤ := 1000

/-- Floor of 2 ^ (a / b) over the reals (for b >= 1), computed with integer
arithmetic as the greatest k <= 2 ^ a with k ^ b <= 2 ^ a. This models the
value (size_t)pow(2, a / (double)b) of line 193. -/
def pow2floor (a b : ℕ) : ℕ :=
  Nat.findGreatest (fun k => k ^ b ≤ 2 ^ a) (2 ^ a)

/-- Upper boundary b1 computed at lines 193-194 for channel i before the
at-least-one-bin adjustment: pow(2, i*9.0/(N-1)) converted to size_t, then
clamped to F - 1. When N = 1 the exponent is 0.0/0.0 = NaN, pow(2, NaN) is
NaN, and its size_t conversion lands above the clamp on the compiled
targets, so the clamp of line 194 yields F - 1. -/
def b1Raw (F N i : ℕ) : ℕ :=
  if N = 1 then F - 1
  else min (F - 1) (pow2floor (9 * i) (N - 1))

/-- Line 195: if (b1 <= b0) b1 = b0 + 1, so every channel uses at least one
fft bin. -/
def adjB1 (F N b0 i : ℕ) : ℕ :=
  let b1 := b1Raw F N i
  if b1 ≤ b0 then b0 + 1 else b1

/-- Value of the loop variable b0 at the start of iteration i of the
bucketizing loop of applyFft (lines 188-197). Channel i consumes the fft
bins 1 + k for k in [bVal F N i, bVal F N (i+1)). -/
def bVal (F N : ℕ) : ℕ → ℕ
  | 0 => 0
  | i + 1 => adjB1 F N (bVal F N i) i

/-- Lines 192 and 196-197: peak = 0; for (; b0 < b1; b0++) if (peak <
m_fft[1 + b0]) peak = m_fft[1 + b0]. -/
def chanPeak (fft : ℕ → ℚ) (b0 b1 : ℕ) : ℚ :=
  (List.range' b0 (b1 - b0)).foldl
    (fun peak k => if peak < fft (1 + k) then fft (1 + k) else peak) 0

/-- Line 198: int val = sqrt(peak) * specHeight - 4. For peak >= 0,
floor(sqrt(peak) * 1000) = Nat.sqrt (floor (10^6 * peak)). The floor here
can differ from the C truncation toward zero only when the expression is
negative, and then both versions are sent to 0 by the cap of line 200. -/
def rawVal (peak : ℚ) : ℤ :=
  (Nat.sqrt (Int.toNat ⌊(1000000 : ℚ) * peak⌋) : ℤ) - 4

/-- Lines 199-200: cap val into [0, specHeight]. -/
def clampVal (v : ℤ) : ℤ :=
  if v > specHeight then specHeight else if v < 0 then 0 else v

/-- Lines 202-204: on every 5th frame decrement the stored peak, floor it at
0, then raise it to val when val exceeds it. Result: updated m_peaks[i]. -/
def newPeak (frames : ℕ) (p v : ℤ) : ℤ :=
  let p1 := if frames % 5 = 0 then p - 1 else p
  let p2 := if p1 < 0 then 0 else p1
  if v > p2 then v else p2

/-- Lines 205-206: if (val < m_peaks[i] - 5) val = (val * specHeight) /
m_peaks[i]. Both operands are nonnegative at every call site, so the C
truncating division agrees with the Euclidean division used here. -/
def renormVal (p v : ℤ) : ℤ :=
  if v < p - 5 then v * specHeight / p else v

/-- QColor value as used by the source: three components in 0..255. -/
structure QColorRGB where
  red : ℕ
  green : ℕ
  blue : ℕ

/-- Lines 212-214: from.c + (to.c - from.c) * (val / (double)specHeight),
converted to int. The expression is a convex combination of values in
[0, 255] whenever val lies in [0, specHeight], hence nonnegative, and the
conversion to int is then the floor computed here. -/
def lerpComp (f t : ℕ) (v : ℤ) : ℤ :=
  ((f : ℤ) * specHeight + ((t : ℤ) - (f : ℤ)) * v) / specHeight

/-- QColor::rgb(): opaque packed 0xFFRRGGBB (4278190080 = 0xFF000000).
Components are masked to 8 bits; they are within 0..255 at every reachable
call. -/
def packRgb (r g b : ℤ) : ℕ :=
  4278190080 + r.toNat % 256 * 65536 + g.toNat % 256 * 256 + b.toNat % 256

/-- Lines 208-214: endpoints chosen by mode (liquid: black to the generator
color; gradient: minColor to maxColor), then per-component interpolation. -/
def chanColor (liquid : Bool) (minC maxC gen : QColorRGB) (v : ℤ) : ℕ :=
  let cFrom := if liquid then QColorRGB.mk 0 0 0 else minC
  let cTo := if liquid then gen else maxC
  packRgb (lerpComp cFrom.red cTo.red v) (lerpComp cFrom.green cTo.green v)
    (lerpComp cFrom.blue cTo.blue v)

/-- External collaborators of one tick: the fft magnitude buffer m_fft as
refreshed by the backend updateFft(), the per-led enable flags
(Settings::isLedEnabled), the current liquid generator color
(m_generator.current()), and fftSize() (1024 in the program). -/
structure SoundEnv where
  fftSize : ℕ
  fft : ℕ → ℚ
  ledEnabled : ℕ → Bool
  generatorCurrent : QColorRGB

/-- Member variables of SoundManagerBase read or written by the embedded
operations. generatorPhase abstracts the internal progression state of the
LiquidColorGenerator (whose implementation is outside this file). -/
structure EngineState where
  frames : ℕ
  peaks : List ℤ
  colors : List ℕ
  isEnabled : Bool
  isLiquidMode : Bool
  generatorRunning : Bool
  generatorPhase : ℕ
  device : ℤ
  minColor : QColorRGB
  maxColor : QColorRGB
  sendOnlyIfChanged : Bool

/-- Loop state of applyFft: b0, the changed flag, and the two arrays. -/
structure FftAcc where
  b0 : ℕ
  changed : Bool
  peaks : List ℤ
  colors : List ℕ

/-- One iteration (channel i) of the loop of applyFft (lines 190-220). -/
def stepChannel (env : SoundEnv) (st : EngineState) (N : ℕ) (acc : FftAcc)
    (i : ℕ) : FftAcc :=
  let b1 := adjB1 env.fftSize N acc.b0 i
  let val := clampVal (rawVal (chanPeak env.fft acc.b0 b1))
  let p := newPeak st.frames (acc.peaks.getD i 0) val
  let val2 := renormVal p val
  let peaks := acc.peaks.set i p
  if env.ledEnabled i then
    let rgb := chanColor st.isLiquidMode st.minColor st.maxColor
      env.generatorCurrent val2
    { b0 := b1
      changed := if acc.colors.getD i 0 = rgb then acc.changed else true
      peaks := peaks
      colors := acc.colors.set i rgb }
  else
    { b0 := b1, changed := acc.changed, peaks := peaks
      colors := acc.colors.set i 0 }

/-- SoundManagerBase::applyFft (lines 185-222): the updated engine state and
the changed flag. -/
def applyFft (env : SoundEnv) (st : EngineState) : EngineState × Bool :=
  let N := st.colors.length
  let r := (List.range N).foldl (stepChannel env st N)
    (FftAcc.mk 0 false st.peaks st.colors)
  ({ st with peaks := r.peaks, colors := r.colors }, r.changed)

/-- SoundManagerBase::updateColors (lines 175-183). Second component: the
updateLedsColors emission, some payload when emitted, none otherwise. -/
def updateColors (env : SoundEnv) (st : EngineState) :
    EngineState × Option (List ℕ) :=
  let st1 := { st with frames := st.frames + 1 }
  let res := applyFft env st1
  if res.2 || !res.1.sendOnlyIfChanged then (res.1, some res.1.colors)
  else (res.1, none)

/-- SoundManagerBase::initColors (lines 224-235): both arrays cleared, then
refilled with numberOfLeds zeros (none for a nonpositive count). -/
def initColors (numberOfLeds : ℤ) : List ℕ × List ℤ :=
  (List.replicate numberOfLeds.toNat 0, List.replicate numberOfLeds.toNat 0)

/-- SoundManagerBase::reset (lines 169-173): initColors(m_colors.size())
plus m_generator.reset(), the latter modelled as resetting the abstract
generator phase. -/
def reset (st : EngineState) : EngineState :=
  let c := initColors (st.colors.length : ℤ)
  { st with colors := c.1, peaks := c.2, generatorPhase := 0 }

/-- SoundManagerBase::setLiquidMode (lines 118-129). Second component: the
emission produced by the immediate updateColors call, if any. -/
def setLiquidMode (env : SoundEnv) (st : EngineState) (state : Bool) :
    EngineState × Option (List ℕ) :=
  let st1 := { st with isLiquidMode := state }
  if st1.isLiquidMode && st1.isEnabled then
    ({ st1 with generatorRunning := true }, none)
  else
    let st2 := { st1 with generatorRunning := false }
    if st2.isEnabled then updateColors env st2 else (st2, none)

/-- SoundManagerBase::requestDeviceList (lines 76-92). init() and
populateDeviceList are backend virtuals: isInited and initOk model the
m_isInited flag and the init() result; devices and recommended are the
values populateDeviceList writes into its out parameters. Second component:
the deviceList emission. -/
def requestDeviceList (st : EngineState) (isInited initOk : Bool)
    (devices : List ℕ) (recommended : ℤ) :
    EngineState × Option (List ℕ × ℤ) :=
  if !isInited && !initOk then ({ st with isEnabled := false }, none)
  else (st, some (devices, recommended))

/-- Value val of channel i (lines 198-200) expressed over the boundary
trace bVal. -/
def valAt (env : SoundEnv) (N i : ℕ) : ℤ :=
  clampVal (rawVal (chanPeak env.fft (bVal env.fftSize N i)
    (bVal env.fftSize N (i + 1))))

/-- Updated m_peaks[i] produced by one applyFft call. -/
def peakAt (env : SoundEnv) (st : EngineState) (i : ℕ) : ℤ :=
  newPeak st.frames (st.peaks.getD i 0) (valAt env st.colors.length i)

/-- Stored m_colors[i] produced by one applyFft call. -/
def colorAt (env : SoundEnv) (st : EngineState) (i : ℕ) : ℕ :=
  if env.ledEnabled i then
    chanColor st.isLiquidMode st.minColor st.maxColor env.generatorCurrent
      (renormVal (peakAt env st i) (valAt env st.colors.length i))
  else 0

lemma getD_set_self {α : Type} (l : List α) (i : ℕ) (v d : α)
    (h : i < l.length) : (l.set i v).getD i d = v := by
  induction l generalizing i with
  | nil => simp at h
  | cons a t ih =>
    cases i with
    | zero => rfl
    | succ n => exact ih n (by simpa using h)

lemma getD_set_ne {α : Type} (l : List α) (i j : ℕ) (v d : α) (h : i ≠ j) :
    (l.set i v).getD j d = l.getD j d := by
  induction l generalizing i j with
  | nil => rfl
  | cons a t ih =>
    cases i with
    | zero => cases j with
      | zero => exact absurd rfl h
      | succ m => rfl
    | succ n => cases j with
      | zero => rfl
      | succ m => exact ih n m (fun hc => h (by rw [hc]))

lemma getD_mem_or_default {α : Type} (l : List α) (i : ℕ) (d : α) :
    l.getD i d ∈ l ∨ l.getD i d = d := by
  induction l generalizing i with
  | nil => exact Or.inr rfl
  | cons a t ih =>
    cases i with
    | zero => exact Or.inl (List.mem_cons_self a t)
    | succ n =>
      rcases ih n with h | h
      · exact Or.inl (List.mem_cons_of_mem a h)
      · exact Or.inr h

lemma clampVal_bounds (v : ℤ) : 0 ≤ clampVal v ∧ clampVal v ≤ 1000 := by
  simp only [clampVal, specHeight]
  split_ifs <;> omega

lemma newPeak_nonneg (frames : ℕ) (p v : ℤ) : 0 ≤ newPeak frames p v := by
  simp only [newPeak]
  split_ifs <;> omega

lemma newPeak_ge_val (frames : ℕ) (p v : ℤ) : v ≤ newPeak frames p v := by
  simp only [newPeak]
  split_ifs <;> omega

lemma newPeak_le (frames : ℕ) (p v : ℤ) (hp : p ≤ 1000) (hv : v ≤ 1000) :
    newPeak frames p v ≤ 1000 := by
  simp only [newPeak]
  split_ifs <;> omega

lemma newPeak_stable (frames : ℕ) (p v : ℤ) (hf : frames % 5 ≠ 0)
    (hp : 0 ≤ p) (hv : v ≤ p) : newPeak frames p v = p := by
  simp only [newPeak]
  split_ifs <;> omega

/-- C2: in the peak renormalization step of applyFft, the branch condition
val < m_peaks[i] - 5 together with val >= 0 forces the divisor m_peaks[i]
(the peak value updated by lines 202-204, newPeak here) to be at least 6,
so the division of line 206 never runs with a zero divisor. -/
theorem renorm_divisor_ge_six (frames : ℕ) (p v : ℤ) (hv : 0 ≤ v)
    (hbr : v < newPeak frames p v - 5) : 6 ≤ newPeak frames p v := by
  omega

theorem renorm_divisor_ge_six_witness :
    ((0:ℤ) ≤ 100 ∧ (100:ℤ) < newPeak 1 200 100 - 5) ∧
      6 ≤ newPeak 1 200 100 :=
  ⟨⟨by decide, by decide⟩, renorm_divisor_ge_six 1 200 100 (by decide) (by decide)⟩

/-- C8 counterexample: when the engine is uninitialized and init() fails,
requestDeviceList returns without emitting any deviceList signal at all; in
particular it does not report an empty device list with recommended index
-1 to the caller. It does set the engine disabled. -/
theorem requestDeviceList_failure_cex :
    (requestDeviceList
        ⟨0, [], [], true, false, false, 0, 0, ⟨0, 0, 0⟩, ⟨0, 0, 0⟩, true⟩
        false false [7] 0).2 = none ∧
    (requestDeviceList
        ⟨0, [], [], true, false, false, 0, 0, ⟨0, 0, 0⟩, ⟨0, 0, 0⟩, true⟩
        false false [7] 0).2 ≠ some ([], -1) ∧
    (requestDeviceList
        ⟨0, [], [], true, false, false, 0, 0, ⟨0, 0, 0⟩, ⟨0, 0, 0⟩, true⟩
        false false [7] 0).1.isEnabled = false := by
  refine ⟨rfl, by decide, rfl⟩

/-- C8 amended: if requestDeviceList is called before initialization and
backend init fails, the engine sets itself disabled and returns without
emitting any device list; when already initialized, or when init succeeds,
it emits the backend-enumerated device list together with the backend
recommended index and leaves the state unchanged. -/
theorem requestDeviceList_spec (st : EngineState) (ok : Bool)
    (devices : List ℕ) (recommended : ℤ) :
    ((requestDeviceList st false false devices recommended).1.isEnabled = false ∧
      (requestDeviceList st false false devices recommended).2 = none) ∧
    requestDeviceList st true ok devices recommended
      = (st, some (devices, recommended)) ∧
    requestDeviceList st false true devices recommended
      = (st, some (devices, recommended)) :=
  ⟨⟨rfl, rfl⟩, rfl, rfl⟩

/-- C10: reset reinitializes both per-channel arrays to all zeros at the
previous channel count (the length of m_colors) and modifies no other
engine field: frames, device, colors, mode flag and gating flag survive,
only the generator is reset. -/
theorem reset_spec (st : EngineState)
    (hlen : st.peaks.length = st.colors.length) :
    (reset st).colors.length = st.colors.length ∧
    (reset st).peaks.length = st.peaks.length ∧
    (∀ c ∈ (reset st).colors, c = 0) ∧
    (∀ p ∈ (reset st).peaks, p = 0) ∧
    (reset st).frames = st.frames ∧
    (reset st).device = st.device ∧
    (reset st).minColor = st.minColor ∧
    (reset st).maxColor = st.maxColor ∧
    (reset st).isLiquidMode = st.isLiquidMode ∧
    (reset st).sendOnlyIfChanged = st.sendOnlyIfChanged ∧
    (reset st).isEnabled = st.isEnabled := by
  refine ⟨?_, ?_, ?_, ?_, rfl, rfl, rfl, rfl, rfl, rfl, rfl⟩
  · simp [reset, initColors]
  · simp [reset, initColors, hlen]
  · intro c hc
    exact List.eq_of_mem_replicate hc
  · intro p hp
    exact List.eq_of_mem_replicate hp

theorem reset_spec_witness :
    ([(5:ℤ)] : List ℤ).length = ([(7:ℕ)] : List ℕ).length ∧
    ((reset ⟨4, [5], [7], true, false, false, 3, 2, ⟨1, 2, 3⟩, ⟨4, 5, 6⟩, true⟩).colors.length = 1 ∧
      (reset ⟨4, [5], [7], true, false, false, 3, 2, ⟨1, 2, 3⟩, ⟨4, 5, 6⟩, true⟩).peaks.length = 1 ∧
      (∀ c ∈ (reset ⟨4, [5], [7], true, false, false, 3, 2, ⟨1, 2, 3⟩, ⟨4, 5, 6⟩, true⟩).colors, c = 0) ∧
      (∀ p ∈ (reset ⟨4, [5], [7], true, false, false, 3, 2, ⟨1, 2, 3⟩, ⟨4, 5, 6⟩, true⟩).peaks, p = 0) ∧
      (reset ⟨4, [5], [7], true, false, false, 3, 2, ⟨1, 2, 3⟩, ⟨4, 5, 6⟩, true⟩).frames = 4 ∧
      (reset ⟨4, [5], [7], true, false, false, 3, 2, ⟨1, 2, 3⟩, ⟨4, 5, 6⟩, true⟩).device = 2 ∧
      (reset ⟨4, [5], [7], true, false, false, 3, 2, ⟨1, 2, 3⟩, ⟨4, 5, 6⟩, true⟩).minColor = ⟨1, 2, 3⟩ ∧
      (reset ⟨4, [5], [7], true, false, false, 3, 2, ⟨1, 2, 3⟩, ⟨4, 5, 6⟩, true⟩).maxColor = ⟨4, 5, 6⟩ ∧
      (reset ⟨4, [5], [7], true, false, false, 3, 2, ⟨1, 2, 3⟩, ⟨4, 5, 6⟩, true⟩).isLiquidMode = false ∧
      (reset ⟨4, [5], [7], true, false, false, 3, 2, ⟨1, 2, 3⟩, ⟨4, 5, 6⟩, true⟩).sendOnlyIfChanged = true ∧
      (reset ⟨4, [5], [7], true, false, false, 3, 2, ⟨1, 2, 3⟩, ⟨4, 5, 6⟩, true⟩).isEnabled = true) :=
  ⟨rfl, reset_spec _ rfl⟩

/-- C1 counterexample: with F = 1024 and N = 2 the two ranges produced by
the bucketizing loop end at final boundary 512, so the fft bin 600, although
inside [1, F), lies in no channel range: the ranges do not cover [1, F). -/
theorem bucketizer_cover_cex :
    (1 ≤ 600 ∧ 600 < 1024) ∧
    (∀ i, i < 2 →
      ¬ (1 + bVal 1024 2 i ≤ 600 ∧ 600 < 1 + bVal 1024 2 (i + 1))) ∧
    bVal 1024 2 2 = 512 := by decide

lemma bVal_lt_succ (F N i : ℕ) : bVal F N i < bVal F N (i + 1) := by
  show bVal F N i < adjB1 F N (bVal F N i) i
  simp only [adjB1]
  split_ifs <;> omega

lemma bVal_le_of_le (F N : ℕ) {i j : ℕ} (h : i ≤ j) :
    bVal F N i ≤ bVal F N j := by
  induction j with
  | zero => simp [Nat.le_zero.mp h]
  | succ j ih =>
    rcases Nat.eq_or_lt_of_le h with he | hl
    · exact he ▸ le_refl _
    · exact le_trans (ih (Nat.lt_succ_iff.mp hl)) (le_of_lt (bVal_lt_succ F N j))

lemma bVal_union_aux (F N k : ℕ) :
    ∀ M, (∃ i, i < M ∧ bVal F N i ≤ k ∧ k < bVal F N (i + 1)) ↔
      k < bVal F N M := by
  intro M
  induction M with
  | zero =>
    simp [bVal]
  | succ M ih =>
    constructor
    · rintro ⟨i, hi, h1, h2⟩
      rcases Nat.lt_succ_iff_lt_or_eq.mp hi with hiM | hiM
      · exact lt_of_lt_of_le (ih.mp ⟨i, hiM, h1, h2⟩)
          (bVal_le_of_le F N (Nat.le_succ M))
      · exact hiM ▸ h2
    · intro hk
      by_cases hkM : k < bVal F N M
      · obtain ⟨i, hi, h1, h2⟩ := ih.mpr hkM
        exact ⟨i, Nat.lt_succ_of_lt hi, h1, h2⟩
      · exact ⟨M, Nat.lt_succ_self M, Nat.le_of_not_lt hkM, hk⟩

lemma foldl_max_init (fft : ℕ → ℚ) (l : List ℕ) (a : ℚ) :
    a ≤ l.foldl (fun peak k => if peak < fft (1 + k) then fft (1 + k) else peak) a := by
  induction l generalizing a with
  | nil => exact le_refl a
  | cons x t ih =>
    have h1 : a ≤ (if a < fft (1 + x) then fft (1 + x) else a) := by
      split_ifs with h
      · exact le_of_lt h
      · exact le_refl a
    exact le_trans h1 (ih _)

lemma foldl_max_ge (fft : ℕ → ℚ) (l : List ℕ) (a : ℚ) (k : ℕ) (hk : k ∈ l) :
    fft (1 + k) ≤
      l.foldl (fun peak j => if peak < fft (1 + j) then fft (1 + j) else peak) a := by
  induction l generalizing a with
  | nil => cases hk
  | cons x t ih =>
    rcases List.mem_cons.mp hk with he | ht
    · refine le_trans ?_ (foldl_max_init fft t _)
      rw [he]
      show fft (1 + x) ≤ if a < fft (1 + x) then fft (1 + x) else a
      split_ifs with h
      · exact le_refl _
      · exact le_of_not_lt h
    · exact ih _ ht

lemma foldl_max_attained (fft : ℕ → ℚ) (l : List ℕ) (a : ℚ) :
    l.foldl (fun peak j => if peak < fft (1 + j) then fft (1 + j) else peak) a = a ∨
      ∃ k ∈ l,
        l.foldl (fun peak j => if peak < fft (1 + j) then fft (1 + j) else peak) a
          = fft (1 + k) := by
  induction l generalizing a with
  | nil => exact Or.inl rfl
  | cons x t ih =>
    rcases ih (if a < fft (1 + x) then fft (1 + x) else a) with h | ⟨k, hk, h⟩
    · by_cases hx : a < fft (1 + x)
      · refine Or.inr ⟨x, List.mem_cons_self x t, ?_⟩
        rw [List.foldl_cons, h, if_pos hx]
      · refine Or.inl ?_
        rw [List.foldl_cons, h, if_neg hx]
    · exact Or.inr ⟨k, List.mem_cons_of_mem x hk, by rw [List.foldl_cons]; exact h⟩

lemma chanPeak_ge (fft : ℕ → ℚ) (b0 b1 k : ℕ) (h1 : b0 ≤ k) (h2 : k < b1) :
    fft (1 + k) ≤ chanPeak fft b0 b1 := by
  refine foldl_max_ge fft _ 0 k ?_
  rw [List.mem_range'_1]
  omega

lemma chanPeak_attained (fft : ℕ → ℚ) (b0 b1 : ℕ) (hlt : b0 < b1)
    (hfft : ∀ k, 0 ≤ fft k) :
    ∃ k, b0 ≤ k ∧ k < b1 ∧ chanPeak fft b0 b1 = fft (1 + k) := by
  rcases foldl_max_attained fft (List.range' b0 (b1 - b0)) 0 with h | ⟨k, hk, h⟩
  · have hc : chanPeak fft b0 b1 = 0 := h
    refine ⟨b0, le_refl b0, hlt,
      le_antisymm ?_ (chanPeak_ge fft b0 b1 b0 (le_refl b0) hlt)⟩
    rw [hc]
    exact hfft _
  · have hc : chanPeak fft b0 b1 = fft (1 + k) := h
    rw [List.mem_range'_1] at hk
    exact ⟨k, hk.1, by omega, hc⟩

/-- C1 amended: for every N >= 1 and every F, one pass of the bucketizing
loop of applyFft produces exactly N ranges [bVal F N i, bVal F N (i+1)),
i < N, over the bin offsets (fft index 1 + offset); the boundaries are
strictly increasing, so the ranges are contiguous with no gaps or overlaps
and each has width >= 1, their union is exactly the offsets below the final
boundary bVal F N N, and the raw value of channel i is the maximum
magnitude over its range. The union is [1, 1 + bVal F N N) as fft indices,
which in general is a proper prefix of [1, F): see the counterexample. -/
theorem bucketizer_partition (F N : ℕ) (fft : ℕ → ℚ) (hN : 1 ≤ N)
    (hfft : ∀ k, 0 ≤ fft k) :
    (∀ i, i < N → bVal F N i < bVal F N (i + 1)) ∧
    (∀ i j, i < j → j < N → bVal F N (i + 1) ≤ bVal F N j) ∧
    (∀ k, (∃ i, i < N ∧ bVal F N i ≤ k ∧ k < bVal F N (i + 1)) ↔
      k < bVal F N N) ∧
    (∀ i, i < N →
      (∀ k, bVal F N i ≤ k → k < bVal F N (i + 1) →
        fft (1 + k) ≤ chanPeak fft (bVal F N i) (bVal F N (i + 1))) ∧
      (∃ k, bVal F N i ≤ k ∧ k < bVal F N (i + 1) ∧
        chanPeak fft (bVal F N i) (bVal F N (i + 1)) = fft (1 + k))) := by
  refine ⟨fun i _ => bVal_lt_succ F N i, ?_, fun k => bVal_union_aux F N k N, ?_⟩
  · intro i j hij _
    exact bVal_le_of_le F N hij
  · intro i _
    refine ⟨fun k h1 h2 => chanPeak_ge fft _ _ k h1 h2, ?_⟩
    exact chanPeak_attained fft _ _ (bVal_lt_succ F N i) hfft

theorem bucketizer_partition_witness :
    (1 ≤ 3 ∧ ∀ k : ℕ, (0 : ℚ) ≤ (fun _ : ℕ => (1 : ℚ)) k) ∧
    ((∀ i, i < 3 → bVal 16 3 i < bVal 16 3 (i + 1)) ∧
      (∀ i j, i < j → j < 3 → bVal 16 3 (i + 1) ≤ bVal 16 3 j) ∧
      (∀ k, (∃ i, i < 3 ∧ bVal 16 3 i ≤ k ∧ k < bVal 16 3 (i + 1)) ↔
        k < bVal 16 3 3) ∧
      (∀ i, i < 3 →
        (∀ k, bVal 16 3 i ≤ k → k < bVal 16 3 (i + 1) →
          (fun _ : ℕ => (1 : ℚ)) (1 + k) ≤
            chanPeak (fun _ : ℕ => (1 : ℚ)) (bVal 16 3 i) (bVal 16 3 (i + 1))) ∧
        (∃ k, bVal 16 3 i ≤ k ∧ k < bVal 16 3 (i + 1) ∧
          chanPeak (fun _ : ℕ => (1 : ℚ)) (bVal 16 3 i) (bVal 16 3 (i + 1))
            = (fun _ : ℕ => (1 : ℚ)) (1 + k)))) :=
  ⟨⟨by decide, fun k => zero_le_one⟩,
    bucketizer_partition 16 3 (fun _ => (1 : ℚ)) (by decide) (fun k => zero_le_one)⟩

/-- Accumulator of the applyFft loop after the first j iterations. -/
def loopAcc (env : SoundEnv) (st : EngineState) (j : ℕ) : FftAcc :=
  (List.range j).foldl (stepChannel env st st.colors.length)
    (FftAcc.mk 0 false st.peaks st.colors)

lemma loopAcc_succ (env : SoundEnv) (st : EngineState) (j : ℕ) :
    loopAcc env st (j + 1)
      = stepChannel env st st.colors.length (loopAcc env st j) j := by
  simp [loopAcc, List.range_succ]

lemma applyFft_eq_loopAcc (env : SoundEnv) (st : EngineState) :
    applyFft env st
      = ({ st with
            peaks := (loopAcc env st st.colors.length).peaks
            colors := (loopAcc env st st.colors.length).colors },
         (loopAcc env st st.colors.length).changed) := rfl

lemma loopAcc_lengths (env : SoundEnv) (st : EngineState) (j : ℕ) :
    (loopAcc env st j).peaks.length = st.peaks.length ∧
    (loopAcc env st j).colors.length = st.colors.length := by
  induction j with
  | zero => exact ⟨rfl, rfl⟩
  | succ j ih =>
    rw [loopAcc_succ]
    simp only [stepChannel]
    split <;> simp [List.length_set, ih.1, ih.2]

lemma loopAcc_spec (env : SoundEnv) (st : EngineState)
    (hlen : st.peaks.length = st.colors.length) :
    ∀ j, j ≤ st.colors.length →
      (loopAcc env st j).b0 = bVal env.fftSize st.colors.length j ∧
      (∀ k, k < j →
        (loopAcc env st j).peaks.getD k 0 = peakAt env st k ∧
        (loopAcc env st j).colors.getD k 0 = colorAt env st k) ∧
      (∀ k, j ≤ k →
        (loopAcc env st j).peaks.getD k 0 = st.peaks.getD k 0 ∧
        (loopAcc env st j).colors.getD k 0 = st.colors.getD k 0) ∧
      ((loopAcc env st j).changed = true ↔
        ∃ k, k < j ∧ env.ledEnabled k = true ∧
          st.colors.getD k 0 ≠ colorAt env st k) := by
  intro j
  induction j with
  | zero =>
    intro _
    refine ⟨rfl, fun k hk => absurd hk (Nat.not_lt_zero k),
      fun k _ => ⟨rfl, rfl⟩, ?_⟩
    simp [loopAcc]
  | succ j ih =>
    intro hj
    obtain ⟨hb0, hdone, htodo, hch⟩ := ih (Nat.le_of_succ_le hj)
    have hjN : j < st.colors.length := hj
    have hplen : (loopAcc env st j).peaks.length = st.peaks.length :=
      (loopAcc_lengths env st j).1
    have hclen : (loopAcc env st j).colors.length = st.colors.length :=
      (loopAcc_lengths env st j).2
    have hpj : (loopAcc env st j).peaks.getD j 0 = st.peaks.getD j 0 :=
      (htodo j (le_refl j)).1
    have hcj : (loopAcc env st j).colors.getD j 0 = st.colors.getD j 0 :=
      (htodo j (le_refl j)).2
    have hb1 : adjB1 env.fftSize st.colors.length
        (bVal env.fftSize st.colors.length j) j
        = bVal env.fftSize st.colors.length (j + 1) := rfl
    rw [loopAcc_succ]
    simp only [stepChannel, hb0, hb1, hpj]
    have hval : clampVal (rawVal (chanPeak env.fft
        (bVal env.fftSize st.colors.length j)
        (bVal env.fftSize st.colors.length (j + 1))))
        = valAt env st.colors.length j := rfl
    rw [hval]
    have hpk : newPeak st.frames (st.peaks.getD j 0)
        (valAt env st.colors.length j) = peakAt env st j := rfl
    rw [hpk]
    split
    case isTrue hE =>
      refine ⟨rfl, ?_, ?_, ?_⟩
      · intro k hk
        rcases Nat.lt_succ_iff_lt_or_eq.mp hk with hkj | hkj
        · exact ⟨by rw [getD_set_ne _ _ _ _ _ (by omega)]; exact (hdone k hkj).1,
            by rw [getD_set_ne _ _ _ _ _ (by omega)]; exact (hdone k hkj).2⟩
        · subst hkj
          refine ⟨getD_set_self _ _ _ _ (by omega), ?_⟩
          rw [getD_set_self _ _ _ _ (by omega)]
          simp only [colorAt, hE, if_true]
      · intro k hk
        exact ⟨by rw [getD_set_ne _ _ _ _ _ (by omega)]; exact (htodo k (by omega)).1,
          by rw [getD_set_ne _ _ _ _ _ (by omega)]; exact (htodo k (by omega)).2⟩
      · have hcol : chanColor st.isLiquidMode st.minColor st.maxColor
            env.generatorCurrent
            (renormVal (peakAt env st j) (valAt env st.colors.length j))
            = colorAt env st j := by
          simp only [colorAt, hE, if_true]
        rw [hcj, hcol]
        by_cases hceq : st.colors.getD j 0 = colorAt env st j
        · rw [if_pos hceq]
          rw [hch]
          constructor
          · rintro ⟨k, hk, h1, h2⟩
            exact ⟨k, Nat.lt_succ_of_lt hk, h1, h2⟩
          · rintro ⟨k, hk, h1, h2⟩
            rcases Nat.lt_succ_iff_lt_or_eq.mp hk with hkj | hkj
            · exact ⟨k, hkj, h1, h2⟩
            · exact absurd hceq (hkj ▸ h2)
        · rw [if_neg hceq]
          simp only [true_iff]
          exact ⟨j, Nat.lt_succ_self j, hE, hceq⟩
    case isFalse hE =>
      have hEf : env.ledEnabled j = false := by
        revert hE
        cases env.ledEnabled j <;> simp
      refine ⟨rfl, ?_, ?_, ?_⟩
      · intro k hk
        rcases Nat.lt_succ_iff_lt_or_eq.mp hk with hkj | hkj
        · exact ⟨by rw [getD_set_ne _ _ _ _ _ (by omega)]; exact (hdone k hkj).1,
            by rw [getD_set_ne _ _ _ _ _ (by omega)]; exact (hdone k hkj).2⟩
        · subst hkj
          refine ⟨getD_set_self _ _ _ _ (by omega), ?_⟩
          rw [getD_set_self _ _ _ _ (by omega)]
          simp only [colorAt, hEf]
          rfl
      · intro k hk
        exact ⟨by rw [getD_set_ne _ _ _ _ _ (by omega)]; exact (htodo k (by omega)).1,
          by rw [getD_set_ne _ _ _ _ _ (by omega)]; exact (htodo k (by omega)).2⟩
      · rw [hch]
        constructor
        · rintro ⟨k, hk, h1, h2⟩
          exact ⟨k, Nat.lt_succ_of_lt hk, h1, h2⟩
        · rintro ⟨k, hk, h1, h2⟩
          rcases Nat.lt_succ_iff_lt_or_eq.mp hk with hkj | hkj
          · exact ⟨k, hkj, h1, h2⟩
          · rw [hkj] at h1
            exact absurd h1 (by rw [hEf]; exact Bool.false_ne_true)

lemma applyFft_changed_iff (env : SoundEnv) (st : EngineState)
    (hlen : st.peaks.length = st.colors.length) :
    (applyFft env st).2 = true ↔
      ∃ k, k < st.colors.length ∧ env.ledEnabled k = true ∧
        st.colors.getD k 0 ≠ colorAt env st k := by
  rw [applyFft_eq_loopAcc]
  exact (loopAcc_spec env st hlen st.colors.length (le_refl _)).2.2.2

lemma applyFft_peaks_getD (env : SoundEnv) (st : EngineState)
    (hlen : st.peaks.length = st.colors.length) (k : ℕ)
    (hk : k < st.colors.length) :
    (applyFft env st).1.peaks.getD k 0 = peakAt env st k := by
  rw [applyFft_eq_loopAcc]
  exact ((loopAcc_spec env st hlen st.colors.length (le_refl _)).2.1 k hk).1

lemma applyFft_colors_getD (env : SoundEnv) (st : EngineState)
    (hlen : st.peaks.length = st.colors.length) (k : ℕ)
    (hk : k < st.colors.length) :
    (applyFft env st).1.colors.getD k 0 = colorAt env st k := by
  rw [applyFft_eq_loopAcc]
  exact ((loopAcc_spec env st hlen st.colors.length (le_refl _)).2.1 k hk).2

lemma applyFft_peaks_length (env : SoundEnv) (st : EngineState) :
    (applyFft env st).1.peaks.length = st.peaks.length := by
  rw [applyFft_eq_loopAcc]
  exact (loopAcc_lengths env st st.colors.length).1

lemma applyFft_colors_length (env : SoundEnv) (st : EngineState) :
    (applyFft env st).1.colors.length = st.colors.length := by
  rw [applyFft_eq_loopAcc]
  exact (loopAcc_lengths env st st.colors.length).2

lemma updateColors_fst (env : SoundEnv) (st : EngineState) :
    (updateColors env st).1
      = (applyFft env { st with frames := st.frames + 1 }).1 := by
  simp only [updateColors]
  split <;> rfl

lemma updateColors_snd (env : SoundEnv) (st : EngineState) :
    (updateColors env st).2
      = if (applyFft env { st with frames := st.frames + 1 }).2
            || !st.sendOnlyIfChanged then
          some (applyFft env { st with frames := st.frames + 1 }).1.colors
        else none := by
  simp only [updateColors]
  have hso : (applyFft env { st with frames := st.frames + 1 }).1.sendOnlyIfChanged
      = st.sendOnlyIfChanged := rfl
  rw [hso]
  split <;> rfl

lemma updateColors_frames (env : SoundEnv) (st : EngineState) :
    (updateColors env st).1.frames = st.frames + 1 := by
  rw [updateColors_fst]
  rfl

lemma updateColors_generatorRunning (env : SoundEnv) (st : EngineState) :
    (updateColors env st).1.generatorRunning = st.generatorRunning := by
  rw [updateColors_fst]
  rfl

lemma colorAt_set_invariant (env : SoundEnv) (st : EngineState) (i : ℕ)
    (c : ℕ) (k : ℕ) :
    colorAt env { st with colors := st.colors.set i c } k = colorAt env st k := by
  have hNM : ({ st with colors := st.colors.set i c } : EngineState).colors.length
      = st.colors.length := List.length_set st.colors i c
  simp only [colorAt, peakAt, valAt, hNM]

lemma applyFft_changed_set_disabled (env : SoundEnv) (st : EngineState)
    (i : ℕ) (c : ℕ) (hlen : st.peaks.length = st.colors.length)
    (hdis : env.ledEnabled i = false) :
    (applyFft env { st with colors := st.colors.set i c }).2
      = (applyFft env st).2 := by
  have hNM : ({ st with colors := st.colors.set i c } : EngineState).colors.length
      = st.colors.length := List.length_set st.colors i c
  have hlenM : ({ st with colors := st.colors.set i c } : EngineState).peaks.length
      = ({ st with colors := st.colors.set i c } : EngineState).colors.length := by
    rw [hNM]
    exact hlen
  have h1 := applyFft_changed_iff env { st with colors := st.colors.set i c } hlenM
  have h2 := applyFft_changed_iff env st hlen
  have hex : (∃ k, k < ({ st with colors := st.colors.set i c } : EngineState).colors.length ∧
        env.ledEnabled k = true ∧
        ({ st with colors := st.colors.set i c } : EngineState).colors.getD k 0
          ≠ colorAt env { st with colors := st.colors.set i c } k) ↔
      (∃ k, k < st.colors.length ∧ env.ledEnabled k = true ∧
        st.colors.getD k 0 ≠ colorAt env st k) := by
    constructor
    · rintro ⟨k, hk, hE, hne⟩
      have hki : i ≠ k := by
        intro he
        rw [← he] at hE
        rw [hdis] at hE
        exact Bool.false_ne_true hE
      refine ⟨k, by rw [hNM] at hk; exact hk, hE, ?_⟩
      have hgd : ({ st with colors := st.colors.set i c } : EngineState).colors.getD k 0
          = st.colors.getD k 0 := getD_set_ne st.colors i k c 0 hki
      rw [hgd, colorAt_set_invariant] at hne
      exact hne
    · rintro ⟨k, hk, hE, hne⟩
      have hki : i ≠ k := by
        intro he
        rw [← he] at hE
        rw [hdis] at hE
        exact Bool.false_ne_true hE
      refine ⟨k, by rw [hNM]; exact hk, hE, ?_⟩
      have hgd : ({ st with colors := st.colors.set i c } : EngineState).colors.getD k 0
          = st.colors.getD k 0 := getD_set_ne st.colors i k c 0 hki
      rw [hgd, colorAt_set_invariant]
      exact hne
  have hiff : ((applyFft env { st with colors := st.colors.set i c }).2 = true)
      ↔ ((applyFft env st).2 = true) := by
    rw [h1, h2]
    exact hex
  cases hb1 : (applyFft env { st with colors := st.colors.set i c }).2 <;>
    cases hb2 : (applyFft env st).2 <;> simp_all

/-- C9: in applyFft a disabled channel has its stored color overwritten with
0 without any comparison, so the changed flag never depends on the previous
stored color at a disabled index: overwriting that stored color with any
value c leaves the changed flag (and hence, with gating enabled, the
emission decision of updateColors) unchanged, and the stored color at the
disabled index after the call is 0, even though the previous value may have
been nonzero. -/
theorem applyFft_disabled_channel (env : SoundEnv) (st : EngineState)
    (i : ℕ) (c : ℕ) (hlen : st.peaks.length = st.colors.length)
    (hi : i < st.colors.length) (hdis : env.ledEnabled i = false) :
    (applyFft env { st with colors := st.colors.set i c }).2
      = (applyFft env st).2 ∧
    (applyFft env st).1.colors.getD i 0 = 0 ∧
    (st.sendOnlyIfChanged = true →
      ((updateColors env { st with colors := st.colors.set i c }).2 = none ↔
        (updateColors env st).2 = none)) := by
  refine ⟨applyFft_changed_set_disabled env st i c hlen hdis, ?_, ?_⟩
  · rw [applyFft_colors_getD env st hlen i hi]
    simp only [colorAt, hdis]
    rfl
  · intro hg
    rw [updateColors_snd env { st with colors := st.colors.set i c },
      updateColors_snd env st]
    have hch : (applyFft env { ({ st with frames := st.frames + 1 } : EngineState)
          with colors := ({ st with frames := st.frames + 1 } : EngineState).colors.set i c }).2
        = (applyFft env { st with frames := st.frames + 1 }).2 :=
      applyFft_changed_set_disabled env { st with frames := st.frames + 1 } i c hlen hdis
    have hsame : ({ ({ st with frames := st.frames + 1 } : EngineState)
          with colors := ({ st with frames := st.frames + 1 } : EngineState).colors.set i c } : EngineState)
        = { ({ st with colors := st.colors.set i c } : EngineState)
            with frames := ({ st with colors := st.colors.set i c } : EngineState).frames + 1 } := rfl
    rw [hsame] at hch
    have hgM : ({ st with colors := st.colors.set i c } : EngineState).sendOnlyIfChanged = true := hg
    rw [hch, hgM]
    split <;> simp

theorem applyFft_disabled_channel_witness :
    (([(0 : ℤ)] : List ℤ).length = ([(7 : ℕ)] : List ℕ).length ∧
      0 < ([(7 : ℕ)] : List ℕ).length ∧
      (fun _ : ℕ => false) 0 = false) ∧
    ((applyFft ⟨1024, fun _ => 0, fun _ => false, ⟨0, 0, 0⟩⟩
        { (⟨0, [0], [7], true, false, false, 0, 0, ⟨0, 0, 0⟩, ⟨0, 0, 0⟩, true⟩ : EngineState)
          with colors := ([(7 : ℕ)] : List ℕ).set 0 9 }).2
      = (applyFft ⟨1024, fun _ => 0, fun _ => false, ⟨0, 0, 0⟩⟩
          ⟨0, [0], [7], true, false, false, 0, 0, ⟨0, 0, 0⟩, ⟨0, 0, 0⟩, true⟩).2 ∧
    (applyFft ⟨1024, fun _ => 0, fun _ => false, ⟨0, 0, 0⟩⟩
        ⟨0, [0], [7], true, false, false, 0, 0, ⟨0, 0, 0⟩, ⟨0, 0, 0⟩, true⟩).1.colors.getD 0 0 = 0 ∧
    ((⟨0, [0], [7], true, false, false, 0, 0, ⟨0, 0, 0⟩, ⟨0, 0, 0⟩, true⟩ : EngineState).sendOnlyIfChanged = true →
      ((updateColors ⟨1024, fun _ => 0, fun _ => false, ⟨0, 0, 0⟩⟩
          { (⟨0, [0], [7], true, false, false, 0, 0, ⟨0, 0, 0⟩, ⟨0, 0, 0⟩, true⟩ : EngineState)
            with colors := ([(7 : ℕ)] : List ℕ).set 0 9 }).2 = none ↔
        (updateColors ⟨1024, fun _ => 0, fun _ => false, ⟨0, 0, 0⟩⟩
          ⟨0, [0], [7], true, false, false, 0, 0, ⟨0, 0, 0⟩, ⟨0, 0, 0⟩, true⟩).2 = none))) :=
  ⟨⟨rfl, by decide, rfl⟩,
    applyFft_disabled_channel ⟨1024, fun _ => 0, fun _ => false, ⟨0, 0, 0⟩⟩
      ⟨0, [0], [7], true, false, false, 0, 0, ⟨0, 0, 0⟩, ⟨0, 0, 0⟩, true⟩
      0 9 rfl (by decide) rfl⟩

lemma stepChannel_peaks_eq (env : SoundEnv) (st : EngineState) (N : ℕ)
    (acc : FftAcc) (i : ℕ) :
    (stepChannel env st N acc i).peaks
      = acc.peaks.set i (newPeak st.frames (acc.peaks.getD i 0)
          (clampVal (rawVal (chanPeak env.fft acc.b0
            (adjB1 env.fftSize N acc.b0 i))))) := by
  simp only [stepChannel]
  split <;> rfl

lemma loopAcc_peaks_bounds (env : SoundEnv) (st : EngineState)
    (hinv : ∀ p ∈ st.peaks, 0 ≤ p ∧ p ≤ 1000) :
    ∀ j, ∀ p ∈ (loopAcc env st j).peaks, 0 ≤ p ∧ p ≤ 1000 := by
  intro j
  induction j with
  | zero => exact hinv
  | succ j ih =>
    rw [loopAcc_succ, stepChannel_peaks_eq]
    intro p hp
    rcases List.mem_or_eq_of_mem_set hp with hm | he
    · exact ih p hm
    · have hold : 0 ≤ (loopAcc env st j).peaks.getD j 0 ∧
          (loopAcc env st j).peaks.getD j 0 ≤ 1000 := by
        rcases getD_mem_or_default (loopAcc env st j).peaks j 0 with hm | hd
        · exact ih _ hm
        · rw [hd]
          exact ⟨le_refl 0, by norm_num⟩
      rw [he]
      exact ⟨newPeak_nonneg _ _ _,
        newPeak_le _ _ _ hold.2 (clampVal_bounds _).2⟩

/-- C6: each stored peak value stays in [0, specHeight]: initColors starts
every peak at 0, and both applyFft and updateColors preserve the bounds for
every channel, across the every-5th-frame decrement, the floor at 0 and the
raise to the clamped val. -/
theorem peaks_invariant (env : SoundEnv) (st : EngineState) (n : ℤ)
    (hinv : ∀ p ∈ st.peaks, 0 ≤ p ∧ p ≤ specHeight) :
    (∀ p ∈ (initColors n).2, p = 0) ∧
    (∀ p ∈ (applyFft env st).1.peaks, 0 ≤ p ∧ p ≤ specHeight) ∧
    (∀ p ∈ (updateColors env st).1.peaks, 0 ≤ p ∧ p ≤ specHeight) := by
  refine ⟨fun p hp => List.eq_of_mem_replicate hp, ?_, ?_⟩
  · rw [applyFft_eq_loopAcc]
    exact loopAcc_peaks_bounds env st hinv _
  · rw [updateColors_fst, applyFft_eq_loopAcc]
    exact loopAcc_peaks_bounds env { st with frames := st.frames + 1 } hinv _

theorem peaks_invariant_witness :
    (∀ p ∈ ([(5 : ℤ)] : List ℤ), 0 ≤ p ∧ p ≤ specHeight) ∧
    ((∀ p ∈ (initColors 3).2, p = 0) ∧
      (∀ p ∈ (applyFft ⟨1024, fun _ => 0, fun _ => true, ⟨0, 0, 0⟩⟩
        ⟨0, [5], [7], true, false, false, 0, 0, ⟨0, 0, 0⟩, ⟨9, 9, 9⟩, true⟩).1.peaks,
        0 ≤ p ∧ p ≤ specHeight) ∧
      (∀ p ∈ (updateColors ⟨1024, fun _ => 0, fun _ => true, ⟨0, 0, 0⟩⟩
        ⟨0, [5], [7], true, false, false, 0, 0, ⟨0, 0, 0⟩, ⟨9, 9, 9⟩, true⟩).1.peaks,
        0 ≤ p ∧ p ≤ specHeight)) :=
  ⟨by decide,
    peaks_invariant ⟨1024, fun _ => 0, fun _ => true, ⟨0, 0, 0⟩⟩
      ⟨0, [5], [7], true, false, false, 0, 0, ⟨0, 0, 0⟩, ⟨9, 9, 9⟩, true⟩ 3
      (by decide)⟩

/-- C4 counterexample: with channel count 0 and gating disabled,
updateColors still emits (the empty color sequence) and still mutates the
engine state by incrementing the frame counter, so it is not a no-op. -/
theorem updateColors_zero_channels_cex :
    (updateColors ⟨1024, fun _ => 0, fun _ => true, ⟨0, 0, 0⟩⟩
        ⟨0, [], [], true, false, false, 0, 0, ⟨0, 0, 0⟩, ⟨9, 9, 9⟩, false⟩).2
      = some [] ∧
    (updateColors ⟨1024, fun _ => 0, fun _ => true, ⟨0, 0, 0⟩⟩
        ⟨0, [], [], true, false, false, 0, 0, ⟨0, 0, 0⟩, ⟨9, 9, 9⟩, false⟩).1.frames
      ≠ 0 := by
  refine ⟨rfl, by decide⟩

/-- C4 amended: with channel count 0, updateColors computes no colors and
leaves peaks and colors unchanged, and with gating enabled it emits
nothing; but it always increments the frame counter, and with gating
disabled it still emits the (empty) color sequence. -/
theorem updateColors_zero_channels (env : SoundEnv) (st : EngineState)
    (h : st.colors.length = 0) :
    (updateColors env st).1 = { st with frames := st.frames + 1 } ∧
    (st.sendOnlyIfChanged = true → (updateColors env st).2 = none) ∧
    (st.sendOnlyIfChanged = false → (updateColors env st).2 = some st.colors) := by
  obtain ⟨fr, pk, cl, en, lm, gr, gp, dv, mnc, mxc, so⟩ := st
  have hc : cl = [] := List.length_eq_zero.mp h
  subst hc
  refine ⟨?_, ?_, ?_⟩
  · rw [updateColors_fst]
    rfl
  · intro hso
    have hso2 : so = true := hso
    subst hso2
    rfl
  · intro hso
    have hso2 : so = false := hso
    subst hso2
    rfl

theorem updateColors_zero_channels_witness :
    (([] : List ℕ).length = 0) ∧
    ((updateColors ⟨1024, fun _ => 0, fun _ => true, ⟨0, 0, 0⟩⟩
        ⟨2, [], [], true, false, false, 0, 0, ⟨0, 0, 0⟩, ⟨9, 9, 9⟩, true⟩).1
      = { (⟨2, [], [], true, false, false, 0, 0, ⟨0, 0, 0⟩, ⟨9, 9, 9⟩, true⟩ : EngineState)
          with frames := 2 + 1 } ∧
    ((⟨2, [], [], true, false, false, 0, 0, ⟨0, 0, 0⟩, ⟨9, 9, 9⟩, true⟩ : EngineState).sendOnlyIfChanged = true →
      (updateColors ⟨1024, fun _ => 0, fun _ => true, ⟨0, 0, 0⟩⟩
        ⟨2, [], [], true, false, false, 0, 0, ⟨0, 0, 0⟩, ⟨9, 9, 9⟩, true⟩).2 = none) ∧
    ((⟨2, [], [], true, false, false, 0, 0, ⟨0, 0, 0⟩, ⟨9, 9, 9⟩, true⟩ : EngineState).sendOnlyIfChanged = false →
      (updateColors ⟨1024, fun _ => 0, fun _ => true, ⟨0, 0, 0⟩⟩
        ⟨2, [], [], true, false, false, 0, 0, ⟨0, 0, 0⟩, ⟨9, 9, 9⟩, true⟩).2
        = some (⟨2, [], [], true, false, false, 0, 0, ⟨0, 0, 0⟩, ⟨9, 9, 9⟩, true⟩ : EngineState).colors)) :=
  ⟨rfl, updateColors_zero_channels ⟨1024, fun _ => 0, fun _ => true, ⟨0, 0, 0⟩⟩
    ⟨2, [], [], true, false, false, 0, 0, ⟨0, 0, 0⟩, ⟨9, 9, 9⟩, true⟩ rfl⟩

/-- C7 amended: switching out of liquid mode while the engine is enabled
stops the generator and triggers exactly one immediate recompute (one
updateColors call, visible as one frame increment); that recompute emits
the color sequence if and only if some enabled channel recomputes (at the
incremented frame count, with the liquid flag cleared) a color different
from its stored one, or gating is disabled; in particular with gating
enabled and colors unchanged the switch emits nothing. -/
theorem setLiquidMode_off_spec (env : SoundEnv) (st : EngineState)
    (hen : st.isEnabled = true)
    (hlen : st.peaks.length = st.colors.length) :
    (setLiquidMode env st false).1.generatorRunning = false ∧
    (setLiquidMode env st false).1.frames = st.frames + 1 ∧
    ((setLiquidMode env st false).2 ≠ none ↔
      ((∃ k, k < st.colors.length ∧ env.ledEnabled k = true ∧
          st.colors.getD k 0 ≠ colorAt env
            { st with
              frames := st.frames + 1
              isLiquidMode := false
              generatorRunning := false } k) ∨
        st.sendOnlyIfChanged = false)) ∧
    (st.sendOnlyIfChanged = false → (setLiquidMode env st false).2 ≠ none) ∧
    ((setLiquidMode env st false).2 = none ∨
      (setLiquidMode env st false).2 = some (setLiquidMode env st false).1.colors) := by
  have h1 : setLiquidMode env st false
      = updateColors env { st with isLiquidMode := false, generatorRunning := false } := by
    simp [setLiquidMode, hen]
  rw [h1]
  have hlen1 : ({ st with
      frames := st.frames + 1
      isLiquidMode := false
      generatorRunning := false } : EngineState).peaks.length
      = ({ st with
        frames := st.frames + 1
        isLiquidMode := false
        generatorRunning := false } : EngineState).colors.length := hlen
  have hiff := applyFft_changed_iff env
    { st with frames := st.frames + 1, isLiquidMode := false, generatorRunning := false }
    hlen1
  refine ⟨?_, ?_, ?_, ?_, ?_⟩
  · rw [updateColors_generatorRunning]
  · rw [updateColors_frames]
  · rw [updateColors_snd]
    have hsame : ({ ({ st with isLiquidMode := false, generatorRunning := false } : EngineState)
        with frames := ({ st with isLiquidMode := false, generatorRunning := false } : EngineState).frames + 1 } : EngineState)
        = { st with
            frames := st.frames + 1
            isLiquidMode := false
            generatorRunning := false } := rfl
    rw [hsame]
    have hso : ({ st with isLiquidMode := false, generatorRunning := false } : EngineState).sendOnlyIfChanged
        = st.sendOnlyIfChanged := rfl
    rw [hso]
    constructor
    · intro hne
      cases hc : (applyFft env { st with
          frames := st.frames + 1
          isLiquidMode := false
          generatorRunning := false }).2
      · cases hso2 : st.sendOnlyIfChanged
        · exact Or.inr rfl
        · rw [hc, hso2] at hne
          simp at hne
      · exact Or.inl (hiff.mp hc)
    · rintro (hE | hso2)
      · have hc : (applyFft env { st with
            frames := st.frames + 1
            isLiquidMode := false
            generatorRunning := false }).2 = true := hiff.mpr hE
        rw [hc]
        simp
      · rw [hso2]
        simp
  · intro hso
    rw [updateColors_snd]
    have hso2 : ({ st with isLiquidMode := false, generatorRunning := false } : EngineState).sendOnlyIfChanged = false := hso
    rw [hso2]
    simp
  · rw [updateColors_snd, updateColors_fst]
    split
    · right
      rfl
    · left
      rfl

theorem setLiquidMode_off_spec_witness :
    ((⟨0, [0], [0], true, true, true, 0, 0, ⟨0, 0, 0⟩, ⟨9, 9, 9⟩, true⟩ : EngineState).isEnabled = true ∧
      ([(0 : ℤ)] : List ℤ).length = ([(0 : ℕ)] : List ℕ).length) ∧
    ((setLiquidMode ⟨1024, fun _ => 0, fun _ => false, ⟨5, 5, 5⟩⟩
        ⟨0, [0], [0], true, true, true, 0, 0, ⟨0, 0, 0⟩, ⟨9, 9, 9⟩, true⟩ false).1.generatorRunning = false ∧
      (setLiquidMode ⟨1024, fun _ => 0, fun _ => false, ⟨5, 5, 5⟩⟩
        ⟨0, [0], [0], true, true, true, 0, 0, ⟨0, 0, 0⟩, ⟨9, 9, 9⟩, true⟩ false).1.frames = 0 + 1 ∧
      ((setLiquidMode ⟨1024, fun _ => 0, fun _ => false, ⟨5, 5, 5⟩⟩
          ⟨0, [0], [0], true, true, true, 0, 0, ⟨0, 0, 0⟩, ⟨9, 9, 9⟩, true⟩ false).2 ≠ none ↔
        ((∃ k, k < ((⟨0, [0], [0], true, true, true, 0, 0, ⟨0, 0, 0⟩, ⟨9, 9, 9⟩, true⟩ : EngineState)).colors.length ∧
            (fun _ : ℕ => false) k = true ∧
            ((⟨0, [0], [0], true, true, true, 0, 0, ⟨0, 0, 0⟩, ⟨9, 9, 9⟩, true⟩ : EngineState)).colors.getD k 0
              ≠ colorAt ⟨1024, fun _ => 0, fun _ => false, ⟨5, 5, 5⟩⟩
                { (⟨0, [0], [0], true, true, true, 0, 0, ⟨0, 0, 0⟩, ⟨9, 9, 9⟩, true⟩ : EngineState) with
                  frames := (⟨0, [0], [0], true, true, true, 0, 0, ⟨0, 0, 0⟩, ⟨9, 9, 9⟩, true⟩ : EngineState).frames + 1
                  isLiquidMode := false
                  generatorRunning := false } k) ∨
          (⟨0, [0], [0], true, true, true, 0, 0, ⟨0, 0, 0⟩, ⟨9, 9, 9⟩, true⟩ : EngineState).sendOnlyIfChanged = false)) ∧
      ((⟨0, [0], [0], true, true, true, 0, 0, ⟨0, 0, 0⟩, ⟨9, 9, 9⟩, true⟩ : EngineState).sendOnlyIfChanged = false →
        (setLiquidMode ⟨1024, fun _ => 0, fun _ => false, ⟨5, 5, 5⟩⟩
          ⟨0, [0], [0], true, true, true, 0, 0, ⟨0, 0, 0⟩, ⟨9, 9, 9⟩, true⟩ false).2 ≠ none) ∧
      ((setLiquidMode ⟨1024, fun _ => 0, fun _ => false, ⟨5, 5, 5⟩⟩
          ⟨0, [0], [0], true, true, true, 0, 0, ⟨0, 0, 0⟩, ⟨9, 9, 9⟩, true⟩ false).2 = none ∨
        (setLiquidMode ⟨1024, fun _ => 0, fun _ => false, ⟨5, 5, 5⟩⟩
          ⟨0, [0], [0], true, true, true, 0, 0, ⟨0, 0, 0⟩, ⟨9, 9, 9⟩, true⟩ false).2
          = some (setLiquidMode ⟨1024, fun _ => 0, fun _ => false, ⟨5, 5, 5⟩⟩
              ⟨0, [0], [0], true, true, true, 0, 0, ⟨0, 0, 0⟩, ⟨9, 9, 9⟩, true⟩ false).1.colors)) :=
  ⟨⟨rfl, rfl⟩, setLiquidMode_off_spec ⟨1024, fun _ => 0, fun _ => false, ⟨5, 5, 5⟩⟩
    ⟨0, [0], [0], true, true, true, 0, 0, ⟨0, 0, 0⟩, ⟨9, 9, 9⟩, true⟩ rfl rfl⟩

lemma sqrt_eval (n k : ℕ) (h1 : k * k ≤ n) (h2 : n < (k + 1) * (k + 1)) :
    Nat.sqrt n = k :=
  le_antisymm (Nat.lt_succ_iff.mp (Nat.sqrt_lt.mpr h2)) (Nat.le_sqrt.mpr h1)

lemma foldl_max_const (c : ℚ) (l : List ℕ) :
    l.foldl (fun peak k => if peak < (fun _ : ℕ => c) (1 + k)
      then (fun _ : ℕ => c) (1 + k) else peak) c = c := by
  induction l with
  | nil => rfl
  | cons x t ih =>
    simp only [List.foldl_cons]
    rw [if_neg (lt_irrefl c)]
    exact ih

lemma chanPeak_const (c : ℚ) (hc : 0 ≤ c) (b0 b1 : ℕ) (h : b0 < b1) :
    chanPeak (fun _ => c) b0 b1 = c := by
  obtain ⟨m, hm⟩ : ∃ m, b1 - b0 = m + 1 := ⟨b1 - b0 - 1, by omega⟩
  rw [chanPeak, hm]
  have hr : List.range' b0 (m + 1) = b0 :: List.range' (b0 + 1) m := rfl
  rw [hr]
  simp only [List.foldl_cons]
  have h0 : (if (0 : ℚ) < c then c else (0 : ℚ)) = c := by
    rcases eq_or_lt_of_le hc with he | hl
    · rw [if_neg (by rw [← he]; exact lt_irrefl 0), ← he]
    · rw [if_pos hl]
  rw [h0]
  exact foldl_max_const c _

lemma eq_singleton_of_length_getD {α : Type} (l : List α) (d x : α)
    (h1 : l.length = 1) (h2 : l.getD 0 d = x) : l = [x] := by
  cases l with
  | nil => simp at h1
  | cons a t =>
    have ht : t = [] := by
      have := h1
      simp only [List.length_cons] at this
      exact List.length_eq_zero.mp (by omega)
    subst ht
    have ha : a = x := h2
    rw [ha]

/-- C7 counterexample: switching from Liquid to Gradient while the engine
is running (enabled, liquid mode on, generator running) does stop the
generator, but when change gating is on and the recomputed colors equal the
stored ones (here: the only channel is disabled, so its color stays 0) the
switch emits nothing at all, not exactly one emission. -/
theorem setLiquidMode_no_emit_cex :
    ((⟨7, [0], [0], true, true, true, 0, 0, ⟨0, 0, 0⟩, ⟨9, 9, 9⟩, true⟩ : EngineState).isEnabled = true) ∧
    ((⟨7, [0], [0], true, true, true, 0, 0, ⟨0, 0, 0⟩, ⟨9, 9, 9⟩, true⟩ : EngineState).isLiquidMode = true) ∧
    ((⟨7, [0], [0], true, true, true, 0, 0, ⟨0, 0, 0⟩, ⟨9, 9, 9⟩, true⟩ : EngineState).sendOnlyIfChanged = true) ∧
    (setLiquidMode ⟨1024, fun _ => 0, fun _ => false, ⟨5, 5, 5⟩⟩
      ⟨7, [0], [0], true, true, true, 0, 0, ⟨0, 0, 0⟩, ⟨9, 9, 9⟩, true⟩ false).1.generatorRunning = false ∧
    (setLiquidMode ⟨1024, fun _ => 0, fun _ => false, ⟨5, 5, 5⟩⟩
      ⟨7, [0], [0], true, true, true, 0, 0, ⟨0, 0, 0⟩, ⟨9, 9, 9⟩, true⟩ false).2 = none := by
  have h1 : setLiquidMode ⟨1024, fun _ => 0, fun _ => false, ⟨5, 5, 5⟩⟩
      ⟨7, [0], [0], true, true, true, 0, 0, ⟨0, 0, 0⟩, ⟨9, 9, 9⟩, true⟩ false
      = updateColors ⟨1024, fun _ => 0, fun _ => false, ⟨5, 5, 5⟩⟩
        ⟨7, [0], [0], true, false, false, 0, 0, ⟨0, 0, 0⟩, ⟨9, 9, 9⟩, true⟩ := rfl
  have hnotex : ¬ ∃ k, k < ((⟨8, [0], [0], true, false, false, 0, 0, ⟨0, 0, 0⟩, ⟨9, 9, 9⟩, true⟩ : EngineState)).colors.length ∧
      (fun _ : ℕ => false) k = true ∧
      ((⟨8, [0], [0], true, false, false, 0, 0, ⟨0, 0, 0⟩, ⟨9, 9, 9⟩, true⟩ : EngineState)).colors.getD k 0
        ≠ colorAt ⟨1024, fun _ => 0, fun _ => false, ⟨5, 5, 5⟩⟩
            ⟨8, [0], [0], true, false, false, 0, 0, ⟨0, 0, 0⟩, ⟨9, 9, 9⟩, true⟩ k := by
    rintro ⟨k, _, hE, _⟩
    exact Bool.false_ne_true hE
  have hch : (applyFft ⟨1024, fun _ => 0, fun _ => false, ⟨5, 5, 5⟩⟩
      ⟨8, [0], [0], true, false, false, 0, 0, ⟨0, 0, 0⟩, ⟨9, 9, 9⟩, true⟩).2 = false := by
    cases hb : (applyFft ⟨1024, fun _ => 0, fun _ => false, ⟨5, 5, 5⟩⟩
        ⟨8, [0], [0], true, false, false, 0, 0, ⟨0, 0, 0⟩, ⟨9, 9, 9⟩, true⟩).2
    · rfl
    · exact absurd ((applyFft_changed_iff _ _ rfl).mp hb) hnotex
  refine ⟨rfl, rfl, rfl, ?_, ?_⟩
  · rw [h1, updateColors_generatorRunning]
  · rw [h1, updateColors_snd]
    have h2 : ({ (⟨7, [0], [0], true, false, false, 0, 0, ⟨0, 0, 0⟩, ⟨9, 9, 9⟩, true⟩ : EngineState)
        with frames := (⟨7, [0], [0], true, false, false, 0, 0, ⟨0, 0, 0⟩, ⟨9, 9, 9⟩, true⟩ : EngineState).frames + 1 } : EngineState)
        = ⟨8, [0], [0], true, false, false, 0, 0, ⟨0, 0, 0⟩, ⟨9, 9, 9⟩, true⟩ := rfl
    rw [h2, hch]
    rfl

lemma applyFft_frames (env : SoundEnv) (st : EngineState) :
    (applyFft env st).1.frames = st.frames := rfl

lemma applyFft_isLiquidMode (env : SoundEnv) (st : EngineState) :
    (applyFft env st).1.isLiquidMode = st.isLiquidMode := rfl

lemma applyFft_minColor (env : SoundEnv) (st : EngineState) :
    (applyFft env st).1.minColor = st.minColor := rfl

lemma applyFft_maxColor (env : SoundEnv) (st : EngineState) :
    (applyFft env st).1.maxColor = st.maxColor := rfl

lemma applyFft_sendOnlyIfChanged (env : SoundEnv) (st : EngineState) :
    (applyFft env st).1.sendOnlyIfChanged = st.sendOnlyIfChanged := rfl

lemma updateColors_second_none (env : SoundEnv) (st : EngineState)
    (hlen : st.peaks.length = st.colors.length)
    (hso : st.sendOnlyIfChanged = true)
    (hf : (st.frames + 2) % 5 ≠ 0) :
    (updateColors env (updateColors env st).1).2 = none := by
  rw [updateColors_fst env st, updateColors_snd]
  set S1 : EngineState := { st with frames := st.frames + 1 } with hS1
  set A1 : EngineState := (applyFft env S1).1 with hA1
  set S2 : EngineState := { A1 with frames := A1.frames + 1 } with hS2
  have hlen1 : S1.peaks.length = S1.colors.length := hlen
  have hlen2 : S2.peaks.length = S2.colors.length := by
    show A1.peaks.length = A1.colors.length
    rw [hA1, applyFft_peaks_length, applyFft_colors_length]
    exact hlen1
  have hN2 : S2.colors.length = st.colors.length := by
    show A1.colors.length = st.colors.length
    rw [hA1, applyFft_colors_length]
  have hfr2 : S2.frames = st.frames + 2 := by
    show A1.frames + 1 = st.frames + 2
    rw [hA1, applyFft_frames]
  have hcolAt : ∀ k, k < st.colors.length →
      colorAt env S2 k = colorAt env S1 k := by
    intro k hk
    have hpg : S2.peaks.getD k 0 = peakAt env S1 k := by
      show A1.peaks.getD k 0 = peakAt env S1 k
      rw [hA1]
      exact applyFft_peaks_getD env S1 hlen1 k hk
    have hpk : peakAt env S2 k = peakAt env S1 k := by
      show newPeak S2.frames (S2.peaks.getD k 0) (valAt env S2.colors.length k)
        = peakAt env S1 k
      rw [hfr2, hpg, hN2]
      have hnn : (0 : ℤ) ≤ peakAt env S1 k := newPeak_nonneg _ _ _
      have hle : valAt env st.colors.length k ≤ peakAt env S1 k :=
        newPeak_ge_val _ _ _
      exact newPeak_stable _ _ _ hf hnn hle
    have hlm : S2.isLiquidMode = S1.isLiquidMode := by
      show A1.isLiquidMode = S1.isLiquidMode
      rw [hA1, applyFft_isLiquidMode]
    have hmn : S2.minColor = S1.minColor := by
      show A1.minColor = S1.minColor
      rw [hA1, applyFft_minColor]
    have hmx : S2.maxColor = S1.maxColor := by
      show A1.maxColor = S1.maxColor
      rw [hA1, applyFft_maxColor]
    show (if env.ledEnabled k = true then
        chanColor S2.isLiquidMode S2.minColor S2.maxColor env.generatorCurrent
          (renormVal (peakAt env S2 k) (valAt env S2.colors.length k))
      else 0) = colorAt env S1 k
    rw [hpk, hN2, hlm, hmn, hmx]
    rfl
  have hnotex : ¬ ∃ k, k < S2.colors.length ∧ env.ledEnabled k = true ∧
      S2.colors.getD k 0 ≠ colorAt env S2 k := by
    rintro ⟨k, hk, hE, hne⟩
    rw [hN2] at hk
    have hcg : S2.colors.getD k 0 = colorAt env S1 k := by
      show A1.colors.getD k 0 = colorAt env S1 k
      rw [hA1]
      exact applyFft_colors_getD env S1 hlen1 k hk
    rw [hcg, hcolAt k hk] at hne
    exact hne rfl
  have hch2 : (applyFft env S2).2 = false := by
    cases hb : (applyFft env S2).2
    · rfl
    · exact absurd ((applyFft_changed_iff env S2 hlen2).mp hb) hnotex
  have hso1 : A1.sendOnlyIfChanged = true := by
    rw [hA1, applyFft_sendOnlyIfChanged]
    exact hso
  rw [hch2, hso1]
  rfl

/-- C3 amended: with gating enabled, two consecutive updateColors calls
under an unchanged environment (same spectrum, same generator color, same
led flags) emit at most once, provided the frame count of the second call
is not a multiple of 5: in that case the second call is guaranteed to emit
nothing. (When the second call lands on an every-5th-frame peak decay the
renormalized values can change and force a second emission, see the
counterexample.) With gating disabled, every updateColors call with nonzero
channel count emits the color sequence. -/
theorem updateColors_gating (env : SoundEnv) (st : EngineState)
    (hlen : st.peaks.length = st.colors.length) :
    (st.sendOnlyIfChanged = true → (st.frames + 2) % 5 ≠ 0 →
      (updateColors env (updateColors env st).1).2 = none) ∧
    (st.sendOnlyIfChanged = false → 0 < st.colors.length →
      (updateColors env st).2 = some (updateColors env st).1.colors) := by
  refine ⟨fun hso hf => updateColors_second_none env st hlen hso hf, ?_⟩
  intro hso _
  rw [updateColors_snd, updateColors_fst]
  have hso1 : ({ st with frames := st.frames + 1 } : EngineState).sendOnlyIfChanged
      = false := hso
  rw [show st.sendOnlyIfChanged = false from hso]
  simp

theorem updateColors_gating_witness :
    (([(0 : ℤ)] : List ℤ).length = ([(0 : ℕ)] : List ℕ).length) ∧
    (((⟨0, [0], [0], true, false, false, 0, 0, ⟨0, 0, 0⟩, ⟨1, 1, 1⟩, true⟩ : EngineState).sendOnlyIfChanged = true →
        (0 + 2) % 5 ≠ 0 →
        (updateColors ⟨1024, fun _ => 0, fun _ => true, ⟨0, 0, 0⟩⟩
          (updateColors ⟨1024, fun _ => 0, fun _ => true, ⟨0, 0, 0⟩⟩
            ⟨0, [0], [0], true, false, false, 0, 0, ⟨0, 0, 0⟩, ⟨1, 1, 1⟩, true⟩).1).2 = none) ∧
      ((⟨0, [0], [0], true, false, false, 0, 0, ⟨0, 0, 0⟩, ⟨1, 1, 1⟩, true⟩ : EngineState).sendOnlyIfChanged = false →
        0 < ((⟨0, [0], [0], true, false, false, 0, 0, ⟨0, 0, 0⟩, ⟨1, 1, 1⟩, true⟩ : EngineState)).colors.length →
        (updateColors ⟨1024, fun _ => 0, fun _ => true, ⟨0, 0, 0⟩⟩
            ⟨0, [0], [0], true, false, false, 0, 0, ⟨0, 0, 0⟩, ⟨1, 1, 1⟩, true⟩).2
          = some (updateColors ⟨1024, fun _ => 0, fun _ => true, ⟨0, 0, 0⟩⟩
              ⟨0, [0], [0], true, false, false, 0, 0, ⟨0, 0, 0⟩, ⟨1, 1, 1⟩, true⟩).1.colors)) :=
  ⟨rfl, updateColors_gating ⟨1024, fun _ => 0, fun _ => true, ⟨0, 0, 0⟩⟩
    ⟨0, [0], [0], true, false, false, 0, 0, ⟨0, 0, 0⟩, ⟨1, 1, 1⟩, true⟩ rfl⟩

/-- C3 counterexample: with gating enabled, two consecutive updateColors
calls on the same spectrum can emit twice. State: one enabled channel,
stored peak 200, stored color 0, frame counter 3, gradient black to white,
constant spectrum with magnitude 169/15625 (val = 100). The first call
emits (stored color changes to the color for renormalized value
100*1000/200 = 500); the second call lands on frame 5, the every-5th-frame
decay lowers the peak to 199, the renormalized value becomes
100*1000/199 = 502, the color changes again and a second emission occurs. -/
theorem updateColors_double_emit_cex :
    ((⟨3, [200], [0], true, false, false, 0, 0, ⟨0, 0, 0⟩, ⟨255, 255, 255⟩, true⟩ : EngineState).sendOnlyIfChanged = true) ∧
    (updateColors ⟨1024, fun _ : ℕ => (169/15625 : ℚ), fun _ : ℕ => true, ⟨0, 0, 0⟩⟩
      ⟨3, [200], [0], true, false, false, 0, 0, ⟨0, 0, 0⟩, ⟨255, 255, 255⟩, true⟩).2 ≠ none ∧
    (updateColors ⟨1024, fun _ : ℕ => (169/15625 : ℚ), fun _ : ℕ => true, ⟨0, 0, 0⟩⟩
      (updateColors ⟨1024, fun _ : ℕ => (169/15625 : ℚ), fun _ : ℕ => true, ⟨0, 0, 0⟩⟩
        ⟨3, [200], [0], true, false, false, 0, 0, ⟨0, 0, 0⟩, ⟨255, 255, 255⟩, true⟩).1).2 ≠ none := by
  set E : SoundEnv := ⟨1024, fun _ : ℕ => (169/15625 : ℚ), fun _ : ℕ => true, ⟨0, 0, 0⟩⟩ with hEd
  set S : EngineState := ⟨3, [200], [0], true, false, false, 0, 0, ⟨0, 0, 0⟩, ⟨255, 255, 255⟩, true⟩ with hSd
  have hval : valAt E 1 0 = 100 := by
    have hb1 : bVal 1024 1 1 = 1023 := by decide
    have hcp : chanPeak (fun _ : ℕ => (169/15625 : ℚ)) 0 1023 = (169/15625 : ℚ) :=
      chanPeak_const _ (by norm_num) 0 1023 (by norm_num)
    have hrv : rawVal (169/15625 : ℚ) = 100 := by
      have hm : (1000000 : ℚ) * (169/15625 : ℚ) = (10816 : ℚ) := by norm_num
      have hsq : Nat.sqrt 10816 = 104 := sqrt_eval 10816 104 (by norm_num) (by norm_num)
      have hfl : ⌊(10816 : ℚ)⌋ = (10816 : ℤ) := by norm_num
      simp only [rawVal, hm, hfl]
      rw [show ((10816 : ℤ)).toNat = 10816 from rfl, hsq]
      decide
    show clampVal (rawVal (chanPeak (fun _ : ℕ => (169/15625 : ℚ))
      (bVal 1024 1 0) (bVal 1024 1 1))) = 100
    rw [show bVal 1024 1 0 = 0 from rfl, hb1, hcp, hrv]
    decide
  have hpk1 : peakAt E ⟨4, [200], [0], true, false, false, 0, 0, ⟨0, 0, 0⟩, ⟨255, 255, 255⟩, true⟩ 0 = 200 := by
    show newPeak 4 (([(200 : ℤ)] : List ℤ).getD 0 0) (valAt E 1 0) = 200
    rw [hval]
    decide
  have hcA : colorAt E ⟨4, [200], [0], true, false, false, 0, 0, ⟨0, 0, 0⟩, ⟨255, 255, 255⟩, true⟩ 0 = 4286545791 := by
    show chanColor false ⟨0, 0, 0⟩ ⟨255, 255, 255⟩ ⟨0, 0, 0⟩
      (renormVal (peakAt E ⟨4, [200], [0], true, false, false, 0, 0, ⟨0, 0, 0⟩, ⟨255, 255, 255⟩, true⟩ 0)
        (valAt E 1 0)) = 4286545791
    rw [hpk1, hval]
    decide
  have hch1 : (applyFft E ⟨4, [200], [0], true, false, false, 0, 0, ⟨0, 0, 0⟩, ⟨255, 255, 255⟩, true⟩).2 = true :=
    (applyFft_changed_iff E _ rfl).mpr ⟨0, by decide, rfl, by rw [hcA]; decide⟩
  refine ⟨rfl, ?_, ?_⟩
  · rw [updateColors_snd,
      show ({ S with frames := S.frames + 1 } : EngineState)
        = ⟨4, [200], [0], true, false, false, 0, 0, ⟨0, 0, 0⟩, ⟨255, 255, 255⟩, true⟩ from rfl,
      hch1]
    simp
  · rw [updateColors_fst,
      show ({ S with frames := S.frames + 1 } : EngineState)
        = ⟨4, [200], [0], true, false, false, 0, 0, ⟨0, 0, 0⟩, ⟨255, 255, 255⟩, true⟩ from rfl,
      updateColors_snd]
    set A1 : EngineState := (applyFft E
      ⟨4, [200], [0], true, false, false, 0, 0, ⟨0, 0, 0⟩, ⟨255, 255, 255⟩, true⟩).1 with hA1
    have hgdp : (applyFft E
        ⟨4, [200], [0], true, false, false, 0, 0, ⟨0, 0, 0⟩, ⟨255, 255, 255⟩, true⟩).1.peaks.getD 0 0
        = peakAt E ⟨4, [200], [0], true, false, false, 0, 0, ⟨0, 0, 0⟩, ⟨255, 255, 255⟩, true⟩ 0 :=
      applyFft_peaks_getD E _ rfl 0 (by decide)
    have hgdc : (applyFft E
        ⟨4, [200], [0], true, false, false, 0, 0, ⟨0, 0, 0⟩, ⟨255, 255, 255⟩, true⟩).1.colors.getD 0 0
        = colorAt E ⟨4, [200], [0], true, false, false, 0, 0, ⟨0, 0, 0⟩, ⟨255, 255, 255⟩, true⟩ 0 :=
      applyFft_colors_getD E _ rfl 0 (by decide)
    have hp : A1.peaks = [200] := by
      rw [hA1]
      refine eq_singleton_of_length_getD _ 0 200 ?_ ?_
      · simp [applyFft_peaks_length]
      · rw [hgdp]
        exact hpk1
    have hc : A1.colors = [4286545791] := by
      rw [hA1]
      refine eq_singleton_of_length_getD _ 0 4286545791 ?_ ?_
      · simp [applyFft_colors_length]
      · rw [hgdc]
        exact hcA
    have hvl2 : valAt E ({ A1 with frames := A1.frames + 1 } : EngineState).colors.length 0
        = 100 := by
      rw [show ({ A1 with frames := A1.frames + 1 } : EngineState).colors
        = A1.colors from rfl, hc]
      exact hval
    have hpk2 : peakAt E ({ A1 with frames := A1.frames + 1 } : EngineState) 0 = 199 := by
      show newPeak ({ A1 with frames := A1.frames + 1 } : EngineState).frames
        (({ A1 with frames := A1.frames + 1 } : EngineState).peaks.getD 0 0)
        (valAt E ({ A1 with frames := A1.frames + 1 } : EngineState).colors.length 0) = 199
      rw [hvl2,
        show ({ A1 with frames := A1.frames + 1 } : EngineState).peaks = A1.peaks from rfl,
        hp, show ({ A1 with frames := A1.frames + 1 } : EngineState).frames = 5 from rfl]
      decide
    have hcA2 : colorAt E ({ A1 with frames := A1.frames + 1 } : EngineState) 0
        = 4286611584 := by
      show chanColor ({ A1 with frames := A1.frames + 1 } : EngineState).isLiquidMode
        ({ A1 with frames := A1.frames + 1 } : EngineState).minColor
        ({ A1 with frames := A1.frames + 1 } : EngineState).maxColor
        E.generatorCurrent
        (renormVal (peakAt E ({ A1 with frames := A1.frames + 1 } : EngineState) 0)
          (valAt E ({ A1 with frames := A1.frames + 1 } : EngineState).colors.length 0))
        = 4286611584
      rw [hpk2, hvl2,
        show ({ A1 with frames := A1.frames + 1 } : EngineState).isLiquidMode = false from rfl,
        show ({ A1 with frames := A1.frames + 1 } : EngineState).minColor = ⟨0, 0, 0⟩ from rfl,
        show ({ A1 with frames := A1.frames + 1 } : EngineState).maxColor = ⟨255, 255, 255⟩ from rfl,
        show E.generatorCurrent = ⟨0, 0, 0⟩ from rfl]
      decide
    have hlen2 : ({ A1 with frames := A1.frames + 1 } : EngineState).peaks.length
        = ({ A1 with frames := A1.frames + 1 } : EngineState).colors.length := by
      rw [show ({ A1 with frames := A1.frames + 1 } : EngineState).peaks = A1.peaks from rfl,
        hp, show ({ A1 with frames := A1.frames + 1 } : EngineState).colors = A1.colors from rfl,
        hc]
      rfl
    have hch2 : (applyFft E ({ A1 with frames := A1.frames + 1 } : EngineState)).2 = true :=
      (applyFft_changed_iff E _ hlen2).mpr
        ⟨0,
          by rw [show ({ A1 with frames := A1.frames + 1 } : EngineState).colors
              = A1.colors from rfl, hc]
             decide,
          rfl,
          by rw [hcA2, show ({ A1 with frames := A1.frames + 1 } : EngineState).colors.getD 0 0
              = A1.colors.getD 0 0 from rfl, hc]
             decide⟩
    rw [hch2]
    simp

lemma pow2floor_key (a b k : ℕ) (hb : 1 ≤ b) :
    (k : ℝ) ≤ (2 : ℝ) ^ ((a : ℝ) / (b : ℝ)) ↔ k ^ b ≤ 2 ^ a := by
  have hb0 : ((b : ℝ)) ≠ 0 := Nat.cast_ne_zero.mpr (by omega)
  have hx0 : (0 : ℝ) < (2 : ℝ) ^ ((a : ℝ) / (b : ℝ)) :=
    Real.rpow_pos_of_pos two_pos _
  have hxb : ((2 : ℝ) ^ ((a : ℝ) / (b : ℝ))) ^ b = (2 : ℝ) ^ a := by
    rw [← Real.rpow_natCast ((2 : ℝ) ^ ((a : ℝ) / (b : ℝ))) b,
      ← Real.rpow_mul (by norm_num : (0 : ℝ) ≤ 2),
      div_mul_cancel₀ _ hb0, Real.rpow_natCast]
  constructor
  · intro h
    have h2 := pow_le_pow_left₀ (by positivity : (0 : ℝ) ≤ (k : ℝ)) h b
    rw [hxb] at h2
    exact_mod_cast h2
  · intro h
    by_contra hlt
    push_neg at hlt
    have h2 := pow_lt_pow_left₀ hlt (le_of_lt hx0) (by omega : b ≠ 0)
    rw [hxb] at h2
    have h4 : ((2 ^ a : ℕ) : ℝ) < ((k ^ b : ℕ) : ℝ) := by push_cast; exact h2
    have h5 := Nat.cast_lt.mp h4
    omega

lemma pow2floor_eq (a b : ℕ) (hb : 1 ≤ b) :
    pow2floor a b = Nat.floor ((2 : ℝ) ^ ((a : ℝ) / (b : ℝ))) := by
  set x := (2 : ℝ) ^ ((a : ℝ) / (b : ℝ)) with hx
  have hx0 : (0 : ℝ) < x := Real.rpow_pos_of_pos two_pos _
  have hbound : 1 ≤ 2 ^ a := Nat.one_le_pow a 2 (by norm_num)
  have hP1 : (1 : ℕ) ^ b ≤ 2 ^ a := by simpa using hbound
  have hm1 : 1 ≤ pow2floor a b :=
    @Nat.le_findGreatest 1 (fun k => k ^ b ≤ 2 ^ a) _ (2 ^ a) hbound hP1
  have hPm : pow2floor a b ^ b ≤ 2 ^ a :=
    @Nat.findGreatest_spec 1 (fun k => k ^ b ≤ 2 ^ a) _ (2 ^ a) hbound hP1
  have hmle : pow2floor a b ≤ 2 ^ a :=
    @Nat.findGreatest_le (fun k => k ^ b ≤ 2 ^ a) _ (2 ^ a)
  have hxm : ((pow2floor a b : ℕ) : ℝ) ≤ x := (pow2floor_key a b _ hb).mpr hPm
  have hxlt : x < (pow2floor a b : ℝ) + 1 := by
    rcases Nat.lt_or_ge (pow2floor a b) (2 ^ a) with hlt | hge
    · have hnP : ¬ ((pow2floor a b + 1) ^ b ≤ 2 ^ a) :=
        @Nat.findGreatest_is_greatest (pow2floor a b + 1)
          (fun k => k ^ b ≤ 2 ^ a) _ (2 ^ a) (Nat.lt_succ_self _) (by omega)
      have h5 : ¬ (((pow2floor a b + 1 : ℕ) : ℝ) ≤ x) :=
        fun hc => hnP ((pow2floor_key a b _ hb).mp hc)
      push_neg at h5
      calc x < ((pow2floor a b + 1 : ℕ) : ℝ) := h5
        _ = (pow2floor a b : ℝ) + 1 := by push_cast; ring
    · have hme : pow2floor a b = 2 ^ a := le_antisymm hmle hge
      have hexp : (a : ℝ) / b ≤ (a : ℝ) := by
        apply div_le_self (Nat.cast_nonneg a)
        exact_mod_cast hb
      have hxle : x ≤ ((2 ^ a : ℕ) : ℝ) := by
        rw [hx]
        calc (2 : ℝ) ^ ((a : ℝ) / (b : ℝ)) ≤ (2 : ℝ) ^ ((a : ℕ) : ℝ) :=
              Real.rpow_le_rpow_of_exponent_le (by norm_num) hexp
          _ = ((2 ^ a : ℕ) : ℝ) := by
              rw [Real.rpow_natCast]
              push_cast
              ring
      rw [hme]
      calc x ≤ ((2 ^ a : ℕ) : ℝ) := hxle
        _ < ((2 ^ a : ℕ) : ℝ) + 1 := by linarith
  symm
  rw [Nat.floor_eq_iff (le_of_lt hx0)]
  exact ⟨hxm, hxlt⟩

/-- C5: for every channel index i < N, the exclusive upper boundary
computed by applyFft before the at-least-one-bin adjustment equals
min(F-1, floor(2 ^ (i * 9 / (N - 1)))) when N >= 2, the floor being the
real-valued one; and when N = 1 the single channel range is [0, F - 1) in
bin offsets, that is, the entire fft bin range 1 .. F-1. -/
theorem bucket_boundary_formula (F N i : ℕ) (hF : 2 ≤ F) (hi : i < N) :
    (2 ≤ N → b1Raw F N i
      = min (F - 1) (Nat.floor ((2 : ℝ) ^ (((i * 9 : ℕ) : ℝ) / ((N : ℝ) - 1))))) ∧
    (N = 1 → bVal F 1 0 = 0 ∧ bVal F 1 1 = F - 1) := by
  constructor
  · intro hN
    have hb : 1 ≤ N - 1 := by omega
    have hcast : (((N - 1 : ℕ)) : ℝ) = (N : ℝ) - 1 := by
      push_cast [Nat.cast_sub (by omega : 1 ≤ N)]
      ring
    have hmul : (((9 * i : ℕ)) : ℝ) = (((i * 9 : ℕ)) : ℝ) := by
      push_cast
      ring
    rw [b1Raw, if_neg (by omega : ¬ N = 1), pow2floor_eq (9 * i) (N - 1) hb,
      hmul, hcast]
  · intro hN
    subst hN
    refine ⟨rfl, ?_⟩
    show adjB1 F 1 (bVal F 1 0) 0 = F - 1
    rw [show bVal F 1 0 = 0 from rfl]
    have hb1 : b1Raw F 1 0 = F - 1 := by
      rw [b1Raw, if_pos rfl]
    simp only [adjB1, hb1]
    rw [if_neg (by omega : ¬ F - 1 ≤ 0)]

theorem bucket_boundary_formula_witness :
    (2 ≤ 1024 ∧ 2 < 4) ∧
    ((2 ≤ 4 → b1Raw 1024 4 2
        = min (1024 - 1) (Nat.floor ((2 : ℝ) ^ (((2 * 9 : ℕ) : ℝ) / ((4 : ℝ) - 1))))) ∧
      (4 = 1 → bVal 1024 1 0 = 0 ∧ bVal 1024 1 1 = 1024 - 1)) :=
  ⟨⟨by norm_num, by norm_num⟩,
    bucket_boundary_formula 1024 4 2 (by norm_num) (by norm_num)⟩
